import Mathlib

/-!
Formal model of the clawnet discovery-and-messaging core.

The development shallow-embeds the Rust sources of the repository:

* src/src/protocol.rs — the wire types (BotAnnouncement, GossipMessage,
  PeerInfo, DirectMessage), their postcard-based encode and decode, and
  the expiry predicate PeerInfo::is_expired;
* src/src/daemon.rs — the listener loop of daemon::run (one iteration is a
  step function over the event it observes) and the per-connection
  responder of accept_loop;
* src/src/cli/send.rs — the send command, as a function of the outcomes of
  its fallible effects.

Modelling conventions:

* bytes are natural numbers (encoders only emit values below 256);
* Rust String values are modelled by their UTF-8 byte sequences
  (List Nat); UTF-8 validity of decoded strings is not re-checked by the
  modelled decoder — the real postcard decoder additionally rejects
  invalid UTF-8, so the model accepts a superset of the inputs the code
  accepts, and every decode-failure theorem proved here transfers to the
  code;
* u64 arithmetic wraps modulo 2 ^ 64 as in release-mode Rust;
* HashMap values are modelled as association lists, encoded in iteration
  order (modelled as list order);
* fallible Rust functions returning Result become Except.

The serialization format is postcard: unsigned integers are LEB128
varints (7 value bits per byte, high bit set on all but the last byte; at
most 10 bytes for a u64), strings and byte sequences are a varint length
followed by the raw bytes, Vec and map are a varint element count
followed by the elements, Option is a 0 byte for None and a 1 byte
followed by the value for Some, and plain structs are the concatenation
of their fields in declaration order with no field names and no framing.
-/

namespace Clawnet

/-- Rust String values are modelled by their UTF-8 byte sequences. -/
abbrev RustStr := List Nat

/-- Modulus of u64 arithmetic. -/
def U64_MOD : Nat := 2 ^ 64

/-- Decode errors of the modelled postcard decoder. The constructors mirror
the postcard error variants reached by this code: running out of input
bytes, an over-long varint, and the WontImplement answer postcard gives to
any deserialize_any request. -/
inductive DecodeError where
  | unexpectedEnd
  | badVarint
  | wontImplement
deriving DecidableEq

instance {ε α : Type} [DecidableEq ε] [DecidableEq α] : DecidableEq (Except ε α) := fun x y =>
  match x, y with
  | .ok a, .ok b =>
    if h : a = b then isTrue (by rw [h]) else isFalse (by intro hc; cases hc; exact h rfl)
  | .ok _, .error _ => isFalse (by intro hc; cases hc)
  | .error _, .ok _ => isFalse (by intro hc; cases hc)
  | .error e, .error f =>
    if h : e = f then isTrue (by rw [h]) else isFalse (by intro hc; cases hc; exact h rfl)

/-- LEB128 varint encoding of an unsigned integer, as postcard writes a
u64. The structural fuel of 10 bytes covers every u64 (and in fact every
value below 128 ^ 10 = 2 ^ 70); all well-formed field values are u64. -/
def encVarintAux : Nat → Nat → List Nat
  | 0, n => [n % 128]
  | fuel + 1, n => if n < 128 then [n] else (n % 128 + 128) :: encVarintAux fuel (n / 128)

/-- Varint encoding of a u64. -/
def encVarint (n : Nat) : List Nat := encVarintAux 10 n

/-- Varint decoder with an explicit byte budget, mirroring postcard, which
reads at most 10 bytes for a u64 and fails with a bad-varint error when the
budget is exhausted. The value it returns comes with the remaining input.
Postcard additionally rejects a 10th byte above 1 (a non-canonical
encoding no encoder emits); that check is not modelled, which again only
enlarges the set of accepted inputs. -/
def decVarintAux : Nat → List Nat → Except DecodeError (Nat × List Nat)
  | 0, _ => .error .badVarint
  | _ + 1, [] => .error .unexpectedEnd
  | fuel + 1, b :: rest =>
    if b < 128 then .ok (b, rest)
    else
      match decVarintAux fuel rest with
      | .ok (v, r) => .ok (b % 128 + 128 * v, r)
      | .error e => .error e

/-- Varint decoder for a u64. -/
def decVarint (input : List Nat) : Except DecodeError (Nat × List Nat) :=
  decVarintAux 10 input

/-- Postcard encoding of a string: varint byte length, then the bytes. -/
def encBytes (s : RustStr) : List Nat := encVarint s.length ++ s

/-- Postcard encoding of an Option of a string. -/
def encOpt : Option RustStr → List Nat
  | none => [0]
  | some s => 1 :: encBytes s

/-- Postcard encoding of a Vec of strings. -/
def encVec (xs : List RustStr) : List Nat :=
  encVarint xs.length ++ (xs.map encBytes).flatten

/-- Postcard encoding of a string-to-string map: varint entry count, then
key and value of each entry, in iteration order. -/
def encStrMap (kvs : List (RustStr × RustStr)) : List Nat :=
  encVarint kvs.length ++ (kvs.map (fun kv => encBytes kv.1 ++ encBytes kv.2)).flatten

/-- Postcard decoder for a length-prefixed byte sequence (the wire shape
of a string): read the varint length, then take that many bytes, failing
when fewer remain. -/
def decBytes (input : List Nat) : Except DecodeError (List Nat × List Nat) :=
  match decVarint input with
  | .error e => .error e
  | .ok (n, r) =>
    if n ≤ r.length then .ok (r.take n, r.drop n) else .error .unexpectedEnd

/-- Sequencing of two step decoders, mirroring nested Result matches. -/
def pbind (d : List Nat → Except DecodeError (α × List Nat))
    (f : α → List Nat → Except DecodeError (β × List Nat))
    (xs : List Nat) : Except DecodeError (β × List Nat) :=
  match d xs with
  | .error e => .error e
  | .ok (a, r) => f a r

/-- Mapping over the value of a step decoder. -/
def pmap (d : List Nat → Except DecodeError (α × List Nat)) (g : α → β)
    (xs : List Nat) : Except DecodeError (β × List Nat) :=
  match d xs with
  | .error e => .error e
  | .ok (a, r) => .ok (g a, r)

/-- BotAnnouncement from src/src/protocol.rs. Field names and order match
the Rust struct; openclaw_version, mode and metadata carry a
serde(default) attribute there. -/
structure BotAnnouncement where
  node_id : RustStr
  name : RustStr
  version : RustStr
  capabilities : List RustStr
  openclaw_version : Option RustStr
  mode : Option RustStr
  timestamp : Nat
  ttl : Nat
  metadata : List (RustStr × RustStr)
deriving DecidableEq

/-- GossipMessage from src/src/protocol.rs: the envelope placed on the
gossip channel, declared in Rust with serde(tag = "type"). -/
inductive GossipMessage where
  | Announce (ann : BotAnnouncement)
  | Leave (node_id : RustStr) (timestamp : Nat)
deriving DecidableEq

/-- UTF-8 bytes of the serde tag field name "type". -/
def tagFieldBytes : List Nat := [116, 121, 112, 101]

/-- UTF-8 bytes of the variant name "Announce". -/
def announceVariantBytes : List Nat := [65, 110, 110, 111, 117, 110, 99, 101]

/-- UTF-8 bytes of the variant name "Leave". -/
def leaveVariantBytes : List Nat := [76, 101, 97, 118, 101]

/-- UTF-8 bytes of the field name "node_id". -/
def nodeIdFieldBytes : List Nat := [110, 111, 100, 101, 95, 105, 100]

/-- UTF-8 bytes of the field name "name". -/
def nameFieldBytes : List Nat := [110, 97, 109, 101]

/-- UTF-8 bytes of the field name "version". -/
def versionFieldBytes : List Nat := [118, 101, 114, 115, 105, 111, 110]

/-- UTF-8 bytes of the field name "capabilities". -/
def capabilitiesFieldBytes : List Nat :=
  [99, 97, 112, 97, 98, 105, 108, 105, 116, 105, 101, 115]

/-- UTF-8 bytes of the field name "openclaw_version". -/
def openclawVersionFieldBytes : List Nat :=
  [111, 112, 101, 110, 99, 108, 97, 119, 95, 118, 101, 114, 115, 105, 111, 110]

/-- UTF-8 bytes of the field name "mode". -/
def modeFieldBytes : List Nat := [109, 111, 100, 101]

/-- UTF-8 bytes of the field name "timestamp". -/
def timestampFieldBytes : List Nat := [116, 105, 109, 101, 115, 116, 97, 109, 112]

/-- UTF-8 bytes of the field name "ttl". -/
def ttlFieldBytes : List Nat := [116, 116, 108]

/-- UTF-8 bytes of the field name "metadata". -/
def metadataFieldBytes : List Nat := [109, 101, 116, 97, 100, 97, 116, 97]

/-- GossipMessage::to_bytes: postcard serialization of the internally
tagged enum. Serde serializes the newtype variant Announce through its
tagged serializer, which turns the inner struct into a map of 1 + 9
entries (the tag entry first, then field-name and value pairs in
declaration order); postcard writes that as a varint entry count followed
by the entries. Serde serializes the struct variant Leave as a struct
whose first field is the tag; postcard drops struct field names and
concatenates the values, so only the variant-name string, node_id and
timestamp are written. -/
def GossipMessage.to_bytes : GossipMessage → List Nat
  | .Announce a =>
    encVarint 10 ++
    encBytes tagFieldBytes ++ encBytes announceVariantBytes ++
    encBytes nodeIdFieldBytes ++ encBytes a.node_id ++
    encBytes nameFieldBytes ++ encBytes a.name ++
    encBytes versionFieldBytes ++ encBytes a.version ++
    encBytes capabilitiesFieldBytes ++ encVec a.capabilities ++
    encBytes openclawVersionFieldBytes ++ encOpt a.openclaw_version ++
    encBytes modeFieldBytes ++ encOpt a.mode ++
    encBytes timestampFieldBytes ++ encVarint a.timestamp ++
    encBytes ttlFieldBytes ++ encVarint a.ttl ++
    encBytes metadataFieldBytes ++ encStrMap a.metadata
  | .Leave nid ts =>
    encBytes leaveVariantBytes ++ encBytes nid ++ encVarint ts

/-- GossipMessage::from_bytes: postcard deserialization of the internally
tagged enum. Serde deserializes a serde(tag = ...) enum by first calling
Deserializer::deserialize_any to buffer the content and locate the tag;
postcard is not self-describing and answers every deserialize_any request
with its WontImplement error. The function therefore returns that error
for every input, the input bytes notwithstanding. -/
def GossipMessage.from_bytes (_bytes : List Nat) : Except DecodeError GossipMessage :=
  .error .wontImplement

/-- PeerInfo from src/src/protocol.rs: the cached peer record. -/
structure PeerInfo where
  node_id : RustStr
  name : RustStr
  capabilities : List RustStr
  last_seen : Nat
  ttl : Nat
  addresses : List RustStr
  metadata : List (RustStr × RustStr)
deriving DecidableEq

/-- PeerInfo::is_expired, with the clock reading passed explicitly: the
Rust body compares now > self.last_seen + self.ttl on u64 values, so the
sum wraps modulo 2 ^ 64. -/
def PeerInfo.is_expired (p : PeerInfo) (now : Nat) : Bool :=
  (p.last_seen + p.ttl) % U64_MOD < now

/-- DirectMessage from src/src/protocol.rs: the message sent over direct
QUIC connections. -/
structure DirectMessage where
  «from» : RustStr
  content : RustStr
  timestamp : Nat
deriving DecidableEq

/-- DirectMessage::to_bytes: postcard writes the three fields in order
with no framing. -/
def DirectMessage.to_bytes (m : DirectMessage) : List Nat :=
  encBytes m.«from» ++ encBytes m.content ++ encVarint m.timestamp

/-- Step decoder for DirectMessage: the two strings, then the u64. -/
def decDirectMessage : List Nat → Except DecodeError (DirectMessage × List Nat) :=
  pbind decBytes fun f =>
    pbind decBytes fun c =>
      pmap decVarint fun t => ⟨f, c, t⟩

/-- DirectMessage::from_bytes: postcard from_bytes deserializes a value
off the front of the input and ignores any trailing bytes. -/
def DirectMessage.from_bytes (bytes : List Nat) : Except DecodeError DirectMessage :=
  match decDirectMessage bytes with
  | .ok (m, _) => .ok m
  | .error e => .error e

/-- Well-formedness of a modelled Rust string: its length fits in a u64
(it is a usize in Rust) and its bytes are u8 values. -/
def WfStr (s : RustStr) : Prop := s.length < U64_MOD ∧ ∀ b ∈ s, b < 256

/-- Well-formedness of a DirectMessage value: the strings are byte
sequences of u8 values and the timestamp is a u64, as in Rust. -/
def DirectMessage.Wf (m : DirectMessage) : Prop :=
  WfStr m.«from» ∧ WfStr m.content ∧ m.timestamp < U64_MOD

instance : DecidablePred WfStr := fun s => by
  unfold WfStr; infer_instance

instance (m : DirectMessage) : Decidable m.Wf := by
  unfold DirectMessage.Wf; infer_instance

/-- Well-formedness of a PeerInfo value: the two u64 fields are in range.
Only these two fields enter the expiry predicate. -/
def PeerInfo.Wf (p : PeerInfo) : Prop := p.last_seen < U64_MOD ∧ p.ttl < U64_MOD

instance (p : PeerInfo) : Decidable p.Wf := by
  unfold PeerInfo.Wf; infer_instance

/-- Modelled from the spec: src/store.rs is not among the given sources
(only its caller in daemon.rs is). The spec says upsert inserts or fully
replaces the record keyed by node_id, always succeeding, with exactly one
record per node_id. -/
def upsert (p : PeerInfo) : List PeerInfo → List PeerInfo
  | [] => [p]
  | q :: rest => if q.node_id = p.node_id then p :: rest else q :: upsert p rest

/-- Daemon-visible mutable state: the peer store plus the DaemonState
counters of src/src/daemon.rs that the listener loop touches. The
counters are u64 atomics in Rust; fetch_add wraps modulo 2 ^ 64. -/
structure DaemonModel where
  store : List PeerInfo
  peers_discovered : Nat
  running : Bool
deriving DecidableEq

/-- PeerInfo record that the Announce arm of the listener loop builds from
a received announcement: last_seen is the local clock, addresses is empty. -/
def peerOfAnnouncement (a : BotAnnouncement) (now : Nat) : PeerInfo :=
  { node_id := a.node_id
    name := a.name
    capabilities := a.capabilities
    last_seen := now
    ttl := a.ttl
    addresses := []
    metadata := a.metadata }

/-- Match of the listener loop of daemon::run on the decode result of one
received gossip payload. An announcement whose node_id equals the local
identity is skipped; any other announcement is upserted with
peers_discovered incremented; a Leave only logs; a decode error only
logs. -/
def handleGossipDecoded (selfId : RustStr) (now : Nat)
    (r : Except DecodeError GossipMessage) (s : DaemonModel) : DaemonModel :=
  match r with
  | .ok (.Announce a) =>
    if a.node_id = selfId then s
    else
      { s with
        store := upsert (peerOfAnnouncement a now) s.store
        peers_discovered := (s.peers_discovered + 1) % U64_MOD }
  | .ok (.Leave _ _) => s
  | .error _ => s

/-- Handling of one received gossip payload, bytes in. -/
def handleGossipBytes (selfId : RustStr) (now : Nat) (bytes : List Nat)
    (s : DaemonModel) : DaemonModel :=
  handleGossipDecoded selfId now (GossipMessage.from_bytes bytes) s

/-- Events one iteration of the listener select loop can observe: the
ctrl-c shutdown signal, a received gossip payload, another gossip event
(neighbor changes and the like), the gossip channel reporting no further
events, or a receive error. -/
inductive LoopEvent where
  | ctrlC
  | gossipReceived (bytes : List Nat)
  | gossipOther
  | channelClosed
  | recvError

/-- Outcome of one listener-loop iteration: continue with a new state, or
leave the loop, possibly broadcasting one last gossip message on the way
out (the broadcast is best-effort; its failure is ignored by the code). -/
inductive StepOut where
  | next (s : DaemonModel)
  | stop (s : DaemonModel) (broadcast : Option GossipMessage)
deriving DecidableEq

/-- One iteration of the listener loop of daemon::run. The ctrl-c arm
broadcasts a Leave built from the local identity and clock, then breaks;
a received payload is handled and the loop continues; other gossip events
are ignored; a closed channel or a receive error breaks the loop with no
broadcast. -/
def listenerStep (selfId : RustStr) (now : Nat) (s : DaemonModel) :
    LoopEvent → StepOut
  | .ctrlC => .stop s (some (.Leave selfId now))
  | .gossipReceived bytes => .next (handleGossipBytes selfId now bytes s)
  | .gossipOther => .next s
  | .channelClosed => .stop s none
  | .recvError => .stop s none

/-- Code run by daemon::run after the listener loop exits, before
node.shutdown(): running is stored false. -/
def afterLoop (s : DaemonModel) : DaemonModel := { s with running := false }

/-- Limit the responder in accept_loop places on the declared length of an
inbound direct message: 1024 * 1024 bytes. -/
def MAX_DIRECT_MSG_LEN : Nat := 1024 * 1024

/-- Big-endian 32-bit value of four bytes, as u32::from_be_bytes reads the
length prefix. -/
def beU32 (b0 b1 b2 b3 : Nat) : Nat := ((b0 * 256 + b1) * 256 + b2) * 256 + b3

/-- Big-endian 4-byte encoding of a u32 value, as to_be_bytes writes the
length prefix of the acknowledgment. -/
def be32Bytes (n : Nat) : List Nat :=
  [n / 2 ^ 24 % 256, n / 2 ^ 16 % 256, n / 2 ^ 8 % 256, n % 256]

/-- UTF-8 bytes of the fixed acknowledgment content "received". -/
def ackContentBytes : List Nat := [114, 101, 99, 101, 105, 118, 101, 100]

/-- Observable outcome of the per-connection responder: the reply frame it
writes back, if any, and how many bytes of the inbound stream it read
before deciding. -/
structure RespondResult where
  reply : Option (List Nat)
  bytesRead : Nat
deriving DecidableEq

/-- Per-connection responder of accept_loop in src/src/daemon.rs, over the
finite byte sequence available on the half-closed inbound stream: read
the 4-byte big-endian length (returning if fewer than 4 bytes arrive),
return with no reply if it exceeds 1 MiB, read exactly that many payload
bytes (returning if fewer arrive), decode; a decoded message is answered
with a length-prefixed acknowledgment DirectMessage, a decode failure
with nothing. The length of the acknowledgment is cast to u32 before
to_be_bytes, hence the modulus. -/
def respond (myId : RustStr) (now : Nat) (input : List Nat) : RespondResult :=
  match input with
  | b0 :: b1 :: b2 :: b3 :: rest =>
    let len := beU32 b0 b1 b2 b3
    if MAX_DIRECT_MSG_LEN < len then ⟨none, 4⟩
    else if rest.length < len then ⟨none, 4 + rest.length⟩
    else
      match DirectMessage.from_bytes (rest.take len) with
      | .ok _ =>
        let ackBytes := DirectMessage.to_bytes ⟨myId, ackContentBytes, now⟩
        ⟨some (be32Bytes (ackBytes.length % 2 ^ 32) ++ ackBytes), 4 + len⟩
      | .error _ => ⟨none, 4 + len⟩
  | short => ⟨none, short.length⟩

/-- Outcome of the bounded response read in cli/send.rs: the 5-second
timeout elapsed, read_response failed (read error, an over-1-MiB declared
response length, or a response that does not decode), or a response
content was obtained. -/
inductive ReadOutcome where
  | timedOut
  | readFailed
  | got (content : List Nat)
deriving DecidableEq

/-- Outcomes of the fallible effects of cli/send.rs::run, in the order the
code performs them. -/
structure SendEnv where
  parseOk : Bool
  connectOk : Bool
  openBiOk : Bool
  writeLenOk : Bool
  writeMsgOk : Bool
  finishOk : Bool
  readOutcome : ReadOutcome
deriving DecidableEq

/-- Errors cli/send.rs::run can return, one per early-exit point. -/
inductive SendError where
  | invalidNodeId
  | connectFailed
  | openBiFailed
  | writeLenFailed
  | writeMsgFailed
  | finishFailed
deriving DecidableEq

/-- UTF-8 bytes of the status string "sent". -/
def statusSentBytes : List Nat := [115, 101, 110, 116]

/-- SendOutput fields that cli/send.rs::run fills in before printing. -/
structure SendOutput where
  status : List Nat
  bytes_sent : Nat
  response : Option (List Nat)
deriving DecidableEq

/-- Timeout in seconds that cli/send.rs::run passes to tokio::time::timeout
around read_response. -/
def RESPONSE_TIMEOUT_SECS : Nat := 5

/-- The send command of src/src/cli/send.rs as a function of its effect
outcomes: parse the target id, connect, open the stream, write the length
prefix, write the message bytes, finish the write side — each failure
returns the corresponding error — then read the response under the
timeout; a timeout or read failure leaves the response field empty, and
the output printed carries status "sent" whenever control reaches it. The
modelled value is what run prints, or the error that prevented printing;
the connection close and node shutdown that follow the print are outside
the model. -/
def sendRun (env : SendEnv) (selfId message : RustStr) (now : Nat) :
    Except SendError SendOutput :=
  if env.parseOk = false then .error .invalidNodeId
  else if env.connectOk = false then .error .connectFailed
  else if env.openBiOk = false then .error .openBiFailed
  else
    let bytes := DirectMessage.to_bytes ⟨selfId, message, now⟩
    if env.writeLenOk = false then .error .writeLenFailed
    else if env.writeMsgOk = false then .error .writeMsgFailed
    else if env.finishOk = false then .error .finishFailed
    else
      .ok
        { status := statusSentBytes
          bytes_sent := bytes.length
          response :=
            match env.readOutcome with
            | .got c => some c
            | _ => none }

/-- Unfolding equation of the varint encoder at positive fuel. -/
theorem encVarintAux_succ (fuel n : Nat) :
    encVarintAux (fuel + 1) n =
      if n < 128 then [n] else (n % 128 + 128) :: encVarintAux fuel (n / 128) := rfl

/-- Unfolding equation of the varint decoder at positive fuel on a
nonempty input. -/
theorem decVarintAux_succ_cons (fuel b : Nat) (rest : List Nat) :
    decVarintAux (fuel + 1) (b :: rest) =
      if b < 128 then .ok (b, rest)
      else
        match decVarintAux fuel rest with
        | .ok (v, r) => .ok (b % 128 + 128 * v, r)
        | .error e => .error e := rfl

/-- The varint decoder undoes the varint encoder at matching fuel and
hands back the untouched remainder of the input. -/
theorem decVarintAux_encVarintAux :
    ∀ fuel n, n < 128 ^ (fuel + 1) → ∀ rest : List Nat,
      decVarintAux (fuel + 1) (encVarintAux (fuel + 1) n ++ rest) = .ok (n, rest) := by
  intro fuel
  induction fuel with
  | zero =>
    intro n hn rest
    rw [pow_one] at hn
    rw [encVarintAux_succ, if_pos hn, List.cons_append, List.nil_append,
      decVarintAux_succ_cons, if_pos hn]
  | succ f ih =>
    intro n hn rest
    by_cases h : n < 128
    · rw [encVarintAux_succ, if_pos h, List.cons_append, List.nil_append,
        decVarintAux_succ_cons, if_pos h]
    · have hdiv : n / 128 < 128 ^ (f + 1) := by
        have h2 : n < 128 ^ (f + 1) * 128 := by
          calc n < 128 ^ (f + 2) := hn
          _ = 128 ^ (f + 1) * 128 := by ring
        omega
      rw [encVarintAux_succ, if_neg h, List.cons_append, decVarintAux_succ_cons,
        if_neg (by omega : ¬ n % 128 + 128 < 128), ih (n / 128) hdiv rest]
      have hval : (n % 128 + 128) % 128 + 128 * (n / 128) = n := by omega
      show Except.ok ((n % 128 + 128) % 128 + 128 * (n / 128), rest) = Except.ok (n, rest)
      rw [hval]

/-- The u64 varint round-trip with an arbitrary remainder. -/
theorem decVarint_encVarint (n : Nat) (hn : n < U64_MOD) (rest : List Nat) :
    decVarint (encVarint n ++ rest) = .ok (n, rest) := by
  have h10 : U64_MOD ≤ 128 ^ 10 := by norm_num [U64_MOD]
  exact decVarintAux_encVarintAux 9 n (by omega) rest




/-- The string decoder undoes the string encoder and hands back the
remainder. -/
theorem decBytes_encBytes (s : RustStr) (hs : s.length < U64_MOD) (rest : List Nat) :
    decBytes (encBytes s ++ rest) = .ok (s, rest) := by
  unfold decBytes encBytes
  rw [List.append_assoc, decVarint_encVarint _ hs]
  show (if s.length ≤ (s ++ rest).length
      then Except.ok ((s ++ rest).take s.length, (s ++ rest).drop s.length)
      else Except.error DecodeError.unexpectedEnd) = Except.ok (s, rest)
  rw [if_pos (by simp), List.take_left, List.drop_left]

/-- Deterministic-consumption property of a step decoder: a successful
decode splits its input into a consumed part and the remainder, and the
decode result depends only on the consumed part. -/
def DetCons {α : Type} (dec : List Nat → Except DecodeError (α × List Nat)) : Prop :=
  ∀ xs v rem, dec xs = .ok (v, rem) →
    ∃ c, xs = c ++ rem ∧ ∀ rest, dec (c ++ rest) = .ok (v, rest)

/-- The varint decoder consumes deterministically at every fuel. -/
theorem detCons_decVarintAux : ∀ fuel, DetCons (decVarintAux fuel) := by
  intro fuel
  induction fuel with
  | zero => intro xs v rem h; exact absurd h (by simp [decVarintAux])
  | succ f ih =>
    intro xs v rem h
    cases xs with
    | nil => exact absurd h (by simp [decVarintAux])
    | cons b r =>
      rw [decVarintAux_succ_cons] at h
      by_cases hb : b < 128
      · rw [if_pos hb] at h
        simp only [Except.ok.injEq, Prod.mk.injEq] at h
        obtain ⟨hv, hr⟩ := h
        subst hv; subst hr
        refine ⟨[b], rfl, fun rest => ?_⟩
        rw [List.cons_append, List.nil_append, decVarintAux_succ_cons, if_pos hb]
      · rw [if_neg hb] at h
        cases hrec : decVarintAux f r with
        | error e =>
          rw [hrec] at h
          exact absurd h (by simp)
        | ok p =>
          obtain ⟨w, r2⟩ := p
          rw [hrec] at h
          simp only [Except.ok.injEq, Prod.mk.injEq] at h
          obtain ⟨hv, hr⟩ := h
          subst hv; subst hr
          obtain ⟨c, hc1, hc2⟩ := ih r w r2 hrec
          subst hc1
          refine ⟨b :: c, by rw [List.cons_append], fun rest => ?_⟩
          rw [List.cons_append, decVarintAux_succ_cons, if_neg hb, hc2 rest]

/-- The u64 varint decoder consumes deterministically. -/
theorem detCons_decVarint : DetCons decVarint :=
  detCons_decVarintAux 10

/-- The string decoder consumes deterministically. -/
theorem detCons_decBytes : DetCons decBytes := by
  intro xs v rem h
  unfold decBytes at h
  cases hrec : decVarint xs with
  | error e => rw [hrec] at h; exact absurd h (by simp)
  | ok p =>
    obtain ⟨n, r⟩ := p
    rw [hrec] at h
    simp only [] at h
    by_cases hn : n ≤ r.length
    · rw [if_pos hn] at h
      simp only [Except.ok.injEq, Prod.mk.injEq] at h
      obtain ⟨hv, hr⟩ := h
      subst hv; subst hr
      obtain ⟨c, hc1, hc2⟩ := detCons_decVarint xs n r hrec
      refine ⟨c ++ r.take n, ?_, fun rest => ?_⟩
      · rw [hc1, List.append_assoc, List.take_append_drop]
      · unfold decBytes
        rw [List.append_assoc, hc2 (r.take n ++ rest)]
        have hlen : (r.take n).length = n := by
          rw [List.length_take]; omega
        show (if n ≤ (r.take n ++ rest).length
            then Except.ok ((r.take n ++ rest).take n, (r.take n ++ rest).drop n)
            else Except.error DecodeError.unexpectedEnd) = _
        rw [if_pos (by simp [hlen]), List.take_left' hlen, List.drop_left' hlen]
    · rw [if_neg hn] at h
      exact absurd h (by simp)

/-- Sequencing preserves deterministic consumption. -/
theorem detCons_pbind {α β : Type} {d : List Nat → Except DecodeError (α × List Nat)}
    {f : α → List Nat → Except DecodeError (β × List Nat)}
    (hd : DetCons d) (hf : ∀ a, DetCons (f a)) : DetCons (pbind d f) := by
  intro xs v rem h
  unfold pbind at h
  cases hrec : d xs with
  | error e => rw [hrec] at h; exact absurd h (by simp)
  | ok p =>
    obtain ⟨a, r⟩ := p
    rw [hrec] at h
    obtain ⟨c1, hc11, hc12⟩ := hd xs a r hrec
    obtain ⟨c2, hc21, hc22⟩ := hf a r v rem h
    refine ⟨c1 ++ c2, ?_, fun rest => ?_⟩
    · rw [hc11, hc21, List.append_assoc]
    · unfold pbind
      rw [List.append_assoc, hc12 (c2 ++ rest)]
      show f a (c2 ++ rest) = Except.ok (v, rest)
      exact hc22 rest

/-- Mapping preserves deterministic consumption. -/
theorem detCons_pmap {α β : Type} {d : List Nat → Except DecodeError (α × List Nat)}
    {g : α → β} (hd : DetCons d) : DetCons (pmap d g) := by
  intro xs v rem h
  unfold pmap at h
  cases hrec : d xs with
  | error e => rw [hrec] at h; exact absurd h (by simp)
  | ok p =>
    obtain ⟨a, r⟩ := p
    rw [hrec] at h
    simp only [Except.ok.injEq, Prod.mk.injEq] at h
    obtain ⟨hv, hr⟩ := h
    subst hv; subst hr
    obtain ⟨c, hc1, hc2⟩ := hd xs a r hrec
    refine ⟨c, hc1, fun rest => ?_⟩
    unfold pmap
    rw [hc2 rest]

/-- The DirectMessage step decoder consumes deterministically. -/
theorem detCons_decDirectMessage : DetCons decDirectMessage := by
  unfold decDirectMessage
  exact detCons_pbind detCons_decBytes fun f =>
    detCons_pbind detCons_decBytes fun c =>
      detCons_pmap detCons_decVarint

/-- The DirectMessage step decoder undoes the encoder and hands back the
remainder of the input. -/
theorem decDirectMessage_toBytes (m : DirectMessage) (hm : m.Wf) (rest : List Nat) :
    decDirectMessage (m.to_bytes ++ rest) = .ok (m, rest) := by
  obtain ⟨⟨hf, _⟩, ⟨hc, _⟩, ht⟩ := hm
  unfold decDirectMessage DirectMessage.to_bytes pbind pmap
  rw [List.append_assoc, List.append_assoc, decBytes_encBytes _ hf]
  simp only []
  rw [decBytes_encBytes _ hc]
  simp only []
  rw [decVarint_encVarint _ ht]

/-- A decoder with deterministic consumption fails on every strict prefix
of an input that decodes exactly. -/
theorem detCons_trunc_error {α : Type} {dec : List Nat → Except DecodeError (α × List Nat)}
    (hdec : DetCons dec) {e : List Nat} {v : α}
    (hfull : ∀ rest, dec (e ++ rest) = .ok (v, rest))
    {p q : List Nat} (hpq : e = p ++ q) (hq : q ≠ []) :
    ∃ err, dec p = .error err := by
  cases hp : dec p with
  | error err => exact ⟨err, rfl⟩
  | ok res =>
    obtain ⟨w, rem⟩ := res
    obtain ⟨c, hc1, hc2⟩ := hdec p w rem hp
    have h1 : dec e = .ok (v, []) := by
      have := hfull []
      rwa [List.append_nil] at this
    have h2 : dec e = .ok (w, rem ++ q) := by
      rw [hpq, hc1, List.append_assoc]
      exact hc2 (rem ++ q)
    rw [h1] at h2
    simp only [Except.ok.injEq, Prod.mk.injEq] at h2
    exact absurd h2.2.symm (by simp [hq])

/-- The decode-after-encode round trip does hold for DirectMessage values:
postcard handles the plain struct. -/
theorem directMessage_roundtrip (m : DirectMessage) (hm : m.Wf) :
    DirectMessage.from_bytes m.to_bytes = .ok m := by
  unfold DirectMessage.from_bytes
  have h := decDirectMessage_toBytes m hm []
  rw [List.append_nil] at h
  rw [h]

/-- C1: the claim states that decode after encode is the identity for both
GossipMessage and DirectMessage. It fails for GossipMessage: the enum is
declared with serde(tag = "type"), whose deserializer calls
deserialize_any, which postcard rejects, so from_bytes returns an error
for the encoding of Leave { node_id: "", timestamp: 0 } — indeed for
every byte input. (The DirectMessage half holds: directMessage_roundtrip.) -/
theorem c1_gossip_decode_encode_fails :
    GossipMessage.from_bytes ((GossipMessage.Leave [] 0).to_bytes) =
      .error .wontImplement ∧
    ∀ bytes, GossipMessage.from_bytes bytes = .error .wontImplement :=
  ⟨rfl, fun _ => rfl⟩

/-- C2: the claim states that decoding never errors merely because the
optional fields are absent. The encoding of an Announce with
openclaw_version = None, mode = None and empty metadata — all optional
fields absent — still fails to decode, because GossipMessage::from_bytes
fails on every input (internally tagged enum over postcard). -/
theorem c2_decode_absent_optionals_fails :
    GossipMessage.from_bytes
      ((GossipMessage.Announce
        { node_id := [97], name := [98], version := [49], capabilities := [],
          openclaw_version := none, mode := none, timestamp := 0, ttl := 60,
          metadata := [] }).to_bytes) = .error .wontImplement := rfl

/-- C3: decoding any strict prefix of the encoding of a valid
DirectMessage or GossipMessage value returns a decode error and never a
successfully decoded value (and the modelled decoders are total
functions, mirroring that from_bytes returns a Result and cannot panic).
For DirectMessage this follows from deterministic consumption; for
GossipMessage every input, prefixes included, is an error. -/
theorem c3_truncated_decode_errors
    (m : DirectMessage) (hm : m.Wf) (p q : List Nat)
    (hpq : m.to_bytes = p ++ q) (hq : q ≠ [])
    (g : GossipMessage) (p2 q2 : List Nat)
    (hpq2 : g.to_bytes = p2 ++ q2) (hq2 : q2 ≠ []) :
    (∃ e, DirectMessage.from_bytes p = .error e) ∧
    (∃ e, GossipMessage.from_bytes p2 = .error e) := by
  constructor
  · obtain ⟨err, herr⟩ :=
      detCons_trunc_error detCons_decDirectMessage
        (decDirectMessage_toBytes m hm) hpq hq
    exact ⟨err, by unfold DirectMessage.from_bytes; rw [herr]⟩
  · exact ⟨.wontImplement, rfl⟩

/-- C3 witness: a concrete DirectMessage and the concrete Leave message,
each with its encoding truncated by one byte, decode to errors. -/
theorem c3_truncated_decode_errors_witness :
    (DirectMessage.Wf ⟨[97], [98, 99], 300⟩) ∧
    ((∃ e, DirectMessage.from_bytes [1, 97, 2, 98, 99, 172] = .error e) ∧
     (∃ e, GossipMessage.from_bytes [5, 76, 101, 97, 118, 101, 0] = .error e)) :=
  ⟨by decide,
   c3_truncated_decode_errors ⟨[97], [98, 99], 300⟩ (by decide)
     [1, 97, 2, 98, 99, 172] [2] (by decide) (by decide)
     (.Leave [] 0) [5, 76, 101, 97, 118, 101, 0] [0] (by decide) (by decide)⟩
/-- C4: in the overflow-free case the expiry predicate is exactly
now > last_seen + ttl; in particular the record is not expired at time
last_seen + ttl and expired at last_seen + ttl + 1 (when that instant is
itself a u64 clock reading). -/
theorem c4_is_expired_iff (p : PeerInfo) (hp : p.last_seen + p.ttl < U64_MOD) :
    (∀ now, now < U64_MOD →
      (p.is_expired now = true ↔ p.last_seen + p.ttl < now)) ∧
    p.is_expired (p.last_seen + p.ttl) = false ∧
    (p.last_seen + p.ttl + 1 < U64_MOD →
      p.is_expired (p.last_seen + p.ttl + 1) = true) := by
  refine ⟨fun now _ => ?_, ?_, fun _ => ?_⟩
  · simp [PeerInfo.is_expired, Nat.mod_eq_of_lt hp]
  · simp [PeerInfo.is_expired, Nat.mod_eq_of_lt hp]
  · simp [PeerInfo.is_expired, Nat.mod_eq_of_lt hp]

/-- C4 witness: for a record with last_seen 10 and ttl 5, expiry is false
at 15 and true at 16. -/
theorem c4_is_expired_iff_witness :
    PeerInfo.is_expired ⟨[], [], [], 10, 5, [], []⟩ 15 = false ∧
    PeerInfo.is_expired ⟨[], [], [], 10, 5, [], []⟩ 16 = true :=
  ⟨(c4_is_expired_iff ⟨[], [], [], 10, 5, [], []⟩ (by decide)).2.1,
   (c4_is_expired_iff ⟨[], [], [], 10, 5, [], []⟩ (by decide)).2.2 (by decide)⟩

/-- C5: the Announce arm of the listener loop leaves the daemon state —
peer store and peers_discovered counter alike — untouched when the
announced node_id equals the local identity: no upsert, no increment. -/
theorem c5_self_announce_not_stored (selfId : RustStr) (now : Nat)
    (a : BotAnnouncement) (s : DaemonModel) (h : a.node_id = selfId) :
    handleGossipDecoded selfId now (.ok (.Announce a)) s = s := by
  simp [handleGossipDecoded, h]

/-- C5 witness: a concrete self announcement leaves a concrete daemon
state unchanged. -/
theorem c5_self_announce_not_stored_witness :
    handleGossipDecoded [1] 7
      (.ok (.Announce
        { node_id := [1], name := [2], version := [], capabilities := [],
          openclaw_version := none, mode := none, timestamp := 0, ttl := 9,
          metadata := [] }))
      ⟨[], 3, true⟩ = ⟨[], 3, true⟩ :=
  c5_self_announce_not_stored [1] 7 _ _ rfl

/-- C6: the Leave arm of the listener loop returns the daemon state
unchanged — no record removed or mutated, no counter changed; the code
only logs. -/
theorem c6_leave_leaves_state_unchanged (selfId : RustStr) (now : Nat)
    (nid : RustStr) (ts : Nat) (s : DaemonModel) :
    handleGossipDecoded selfId now (.ok (.Leave nid ts)) s = s := rfl

/-- C7: the responder answers nothing when the declared big-endian length
exceeds 1 MiB — reading only the 4 length bytes, never the payload — and
answers nothing when the payload fails to decode. -/
theorem c7_responder_silent_on_oversize_or_bad_decode
    (myId : RustStr) (now : Nat) (b0 b1 b2 b3 : Nat) (rest : List Nat) :
    (MAX_DIRECT_MSG_LEN < beU32 b0 b1 b2 b3 →
      respond myId now (b0 :: b1 :: b2 :: b3 :: rest) = ⟨none, 4⟩) ∧
    (beU32 b0 b1 b2 b3 ≤ MAX_DIRECT_MSG_LEN →
      ¬ rest.length < beU32 b0 b1 b2 b3 →
      (∃ e, DirectMessage.from_bytes (rest.take (beU32 b0 b1 b2 b3)) = .error e) →
      respond myId now (b0 :: b1 :: b2 :: b3 :: rest) =
        ⟨none, 4 + beU32 b0 b1 b2 b3⟩) := by
  constructor
  · intro h
    simp only [respond]
    rw [if_pos h]
  · intro h1 h2 h3
    obtain ⟨e, he⟩ := h3
    simp only [respond]
    rw [if_neg (by omega), if_neg h2, he]

/-- C7 witness: a declared length of 1048577 is answered with silence
after 4 bytes read, and a declared length of 0 whose empty payload fails
to decode is answered with silence. -/
theorem c7_responder_silent_witness :
    respond [] 0 [0, 16, 0, 1] = ⟨none, 4⟩ ∧
    respond [] 0 [0, 0, 0, 0] = ⟨none, 4 + beU32 0 0 0 0⟩ :=
  ⟨(c7_responder_silent_on_oversize_or_bad_decode [] 0 0 16 0 1 []).1 (by decide),
   (c7_responder_silent_on_oversize_or_bad_decode [] 0 0 0 0 0 []).2
     (by decide) (by decide) ⟨.unexpectedEnd, rfl⟩⟩
/-- C8 counterexample: a run in which the length prefix and the message
bytes are both successfully written, but the subsequent stream finish
(the half-close, a separate fallible call the code propagates with the
question-mark operator) fails, returns an error instead of reporting
status "sent". -/
theorem c8_write_success_not_sufficient :
    (⟨true, true, true, true, true, false, .timedOut⟩ : SendEnv).writeLenOk = true ∧
    (⟨true, true, true, true, true, false, .timedOut⟩ : SendEnv).writeMsgOk = true ∧
    sendRun ⟨true, true, true, true, true, false, .timedOut⟩ [97] [98] 5 =
      .error .finishFailed :=
  ⟨rfl, rfl, rfl⟩

/-- C8 as amended: once the length prefix and message bytes are written
and the write-side finish succeeds, the command reports status "sent"
regardless of the response read: a timeout of the 5-second bound or a
read failure only leaves the response field absent, and an obtained
response is carried through. -/
theorem c8_sent_reported_after_write_and_finish (env : SendEnv)
    (selfId message : RustStr) (now : Nat)
    (hp : env.parseOk = true) (hc : env.connectOk = true)
    (ho : env.openBiOk = true) (hw1 : env.writeLenOk = true)
    (hw2 : env.writeMsgOk = true) (hf : env.finishOk = true) :
    RESPONSE_TIMEOUT_SECS = 5 ∧
    ∃ out, sendRun env selfId message now = .ok out ∧
      out.status = statusSentBytes ∧
      ((env.readOutcome = .timedOut ∨ env.readOutcome = .readFailed) →
        out.response = none) ∧
      (∀ c, env.readOutcome = .got c → out.response = some c) := by
  refine ⟨rfl, ?_⟩
  cases henv : env.readOutcome with
  | timedOut =>
    refine ⟨{ status := statusSentBytes,
              bytes_sent := (DirectMessage.to_bytes ⟨selfId, message, now⟩).length,
              response := none }, ?_, rfl, fun _ => rfl, ?_⟩
    · simp [sendRun, hp, hc, ho, hw1, hw2, hf, henv]
    · intro c hcontra
      cases hcontra
  | readFailed =>
    refine ⟨{ status := statusSentBytes,
              bytes_sent := (DirectMessage.to_bytes ⟨selfId, message, now⟩).length,
              response := none }, ?_, rfl, fun _ => rfl, ?_⟩
    · simp [sendRun, hp, hc, ho, hw1, hw2, hf, henv]
    · intro c hcontra
      cases hcontra
  | got c =>
    refine ⟨{ status := statusSentBytes,
              bytes_sent := (DirectMessage.to_bytes ⟨selfId, message, now⟩).length,
              response := some c }, ?_, rfl, ?_, ?_⟩
    · simp [sendRun, hp, hc, ho, hw1, hw2, hf, henv]
    · intro hcontra
      cases hcontra with
      | inl h2 => cases h2
      | inr h2 => cases h2
    · intro c2 hgot
      cases hgot
      rfl

/-- C8 witness: a concrete run whose writes and finish succeed and whose
response read times out reports status "sent" with no response. -/
theorem c8_sent_reported_witness :
    RESPONSE_TIMEOUT_SECS = 5 ∧
    ∃ out,
      sendRun ⟨true, true, true, true, true, true, .timedOut⟩ [1] [2] 3 = .ok out ∧
      out.status = statusSentBytes ∧
      (((⟨true, true, true, true, true, true, .timedOut⟩ : SendEnv).readOutcome = .timedOut ∨
        (⟨true, true, true, true, true, true, .timedOut⟩ : SendEnv).readOutcome = .readFailed) →
        out.response = none) ∧
      (∀ c, (⟨true, true, true, true, true, true, .timedOut⟩ : SendEnv).readOutcome = .got c →
        out.response = some c) :=
  c8_sent_reported_after_write_and_finish
    ⟨true, true, true, true, true, true, .timedOut⟩ [1] [2] 3 rfl rfl rfl rfl rfl rfl

/-- C9 counterexample: when the listener loop ends because the gossip
channel closed (no more events possible), the daemon enters shutdown
broadcasting nothing — no LeaveNotice — contradicting the claim that
every way of entering shutdown broadcasts one. -/
theorem c9_channel_close_no_leave_broadcast :
    listenerStep [] 0 ⟨[], 0, true⟩ .channelClosed = .stop ⟨[], 0, true⟩ none := rfl

/-- C9 as amended: only shutdown triggered by the external ctrl-c signal
broadcasts a LeaveNotice (best-effort, built from the local identity and
clock); shutdown via gossip-channel close or a receive error broadcasts
nothing; in every case running is set to false after the loop, before the
daemon stops. -/
theorem c9_shutdown_paths (selfId : RustStr) (now : Nat) (s : DaemonModel) :
    listenerStep selfId now s .ctrlC = .stop s (some (.Leave selfId now)) ∧
    listenerStep selfId now s .channelClosed = .stop s none ∧
    listenerStep selfId now s .recvError = .stop s none ∧
    (afterLoop s).running = false :=
  ⟨rfl, rfl, rfl, rfl⟩

/-- C10: is_expired adds last_seen and ttl with wrapping u64 arithmetic,
so a record with last_seen = 1 and ttl = 2 ^ 64 - 1 — whose true sum
exceeds u64::MAX — is reported expired at now = 1, the very second it was
seen, although over unbounded integers now > last_seen + ttl is false. -/
theorem c10_is_expired_overflow_wrap :
    U64_MOD ≤ 1 + (U64_MOD - 1) ∧
    PeerInfo.is_expired ⟨[], [], [], 1, U64_MOD - 1, [], []⟩ 1 = true ∧
    ¬ (1 + (U64_MOD - 1) < 1) :=
  ⟨by decide, by decide, by decide⟩

end Clawnet
